import Mathlib

/-!
Verification of the zlog scope-aware logging core (crates/zlog/src/zlog.rs).

Shallow embedding conventions:
* `&'static str` segments are Lean `String`s; a `Scope` (`[&'static str; 4]`)
  is a `List String` of length `SCOPE_DEPTH_MAX` produced by `scope_new`.
* The `filter` module (crates/zlog/src/filter.rs) is not part of the sources;
  the two query operations the dispatch path consults are abstract boolean
  predicates bundled in the `Filters` structure, modelled from the spec.
* `std::time::Instant` / `Duration` are modelled as `Nat` (nanosecond counts);
  `Instant::elapsed` is truncated subtraction, which matches the fact that an
  elapsed time is never negative.
* Rust `format_args!` values are opaque formatting objects; they are modelled
  by the inductive `Message`, whose timer constructors carry exactly the
  arguments interpolated by `Timer::finish`.
* Operations that can panic are embedded as `Option`-returning functions,
  `none` meaning a panic.
-/

/-- Rust: `pub const SCOPE_DEPTH_MAX: usize = 4;` -/
def SCOPE_DEPTH_MAX : Nat := 4

/-- A `Scope` is `[&'static str; SCOPE_DEPTH_MAX]`; unused trailing slots hold `""`. -/
abbrev Scope := List String

/-- Severity levels of the `log` crate, `Trace` .. `Error`. -/
inductive Level where
  | trace
  | debug
  | info
  | warn
  | error
deriving DecidableEq, Repr

/-- `log::LevelFilter`: `Off` plus the five levels. -/
inductive LevelFilter where
  | off
  | error
  | warn
  | info
  | debug
  | trace
deriving DecidableEq, Repr

/-- `log::LevelFilter::max()` is `Trace`, the most verbose filter. -/
def LevelFilter.maxLevel : LevelFilter := LevelFilter.trace

/-- Opaque formatting payloads (`format_args!`). The timer constructors record
exactly the values `Timer::finish` interpolates into its format strings:
the timer label, the elapsed time, and (for the warn case) the limit. -/
inductive Message where
  | plain (s : String)
  | timerWarn (name : String) (elapsed : Nat) (limit : Nat)
  | timerTrace (name : String) (elapsed : Nat)
deriving DecidableEq, Repr

/-- Rust: `pub struct Logger { pub scope: Scope }`, with
`#[derive(Clone, Copy, Debug, PartialEq, Eq)]`. -/
structure Logger where
  scope : Scope
deriving DecidableEq, Repr

/-- `sink::Record`: the data handed across the sink boundary by `sink::submit`. -/
structure SinkRecord where
  scope : Scope
  level : Level
  message : Message
  module_path : Option String
deriving DecidableEq, Repr

/-- Modelled from the spec: the `filter` module is not among the sources, only
its callers are. Per the spec it exposes a cheap global level gate
(`is_possibly_enabled_level`) and a scope-match check (`is_scope_enabled`);
both are modelled as abstract boolean predicates. -/
structure Filters where
  is_possibly_enabled_level : Level → Bool
  is_scope_enabled : Scope → Option String → Level → Bool

/-- A `log::Record` as seen by the `log::Log` implementations: its level,
message, and the origin accessors `module_path_static`, `module_path`, `file`. -/
structure LogRecord where
  level : Level
  message : Message
  module_path_static : Option String
  module_path : Option String
  file : Option String

/-- Helper for `extract_crate_name_from_module_path`: the index of the first
complete `"::"` marker, mirroring the byte scan
`while i + 1 < len { if b[i] == b':' && b[i+1] == b':' { index = i; break } }`.
Since `':'` is ASCII, a byte equal to `b':'` is exactly a `':'` character, so
scanning characters finds the same first marker as scanning bytes. -/
def find_double_colon : List Char → Option Nat
  | c1 :: c2 :: rest =>
      if c1 = ':' ∧ c2 = ':' then some 0
      else (find_double_colon (c2 :: rest)).map (fun n => n + 1)
  | _ => none

/-- Rust: `private::extract_crate_name_from_module_path`, character-level.
`index` defaults to the length when no complete marker exists, and
`split_at_checked(index)` then returns the whole string; at a found marker the
split index sits on the ASCII `':'`, always a character boundary, so the
`split_at_checked` fallback branch is unreachable. -/
def extract_crate_name_from_module_path_chars (p : List Char) : List Char :=
  match find_double_colon p with
  | some i => p.take i
  | none => p

/-- Rust: `private::extract_crate_name_from_module_path` on `String`s. -/
def extract_crate_name_from_module_path (module_path : String) : String :=
  String.mk (extract_crate_name_from_module_path_chars module_path.data)

/-- Rust: `private::scope_new`. The source asserts `scopes.len() <= SCOPE_DEPTH_MAX`
(every call site in zlog.rs passes at most one element) and fills the remaining
slots with `""`. -/
def scope_new (scopes : List String) : Scope :=
  scopes ++ List.replicate (SCOPE_DEPTH_MAX - scopes.length) ""

/-- Length of the maximal leading run of non-empty segments. -/
def nonempty_run_len : List String → Nat
  | [] => 0
  | s :: rest => if s.isEmpty then 0 else nonempty_run_len rest + 1

/-- The loop of the `scoped!` macro:
`while index < scope.len() && !scope[index].is_empty() { index += 1 }`
starting from `index`; it stops at the first empty slot at or after `index`,
or at `scope.len()` when there is none. -/
def first_empty_from (scope : List String) (index : Nat) : Nat :=
  index + nonempty_run_len (scope.drop index)

/-- Rust: the `scoped!` macro body. `index` starts at 1 (slot 0 always holds the
crate/module name). When every slot from 1 on is occupied, `index` equals
`scope.len()`: in debug builds the `unreachable!` panics there, and in release
builds the `#[cfg(debug_assertions)]` block is empty and the subsequent
`scope[index] = name` write is out of bounds, which also panics. Both panics
are modelled as `none`. Otherwise the new segment is written at `index`. -/
def scoped_derive (parent : Logger) (name : String) : Option Logger :=
  let scope := parent.scope
  let index := first_empty_from scope 1
  if index ≥ scope.length then
    none
  else
    some { scope := scope.set index name }

/-- Rust: `default_logger!` builds `Logger { scope: scope_new(&[crate_name!()]) }`. -/
def default_logger (module_path : String) : Logger :=
  { scope := scope_new [extract_crate_name_from_module_path module_path] }

/-- The crate-name scope built by `impl log::Log for Zlog::log` from
`record.module_path_static()`. -/
def zlog_crate_name_scope (record : LogRecord) : Scope :=
  match record.module_path_static with
  | some module_path => scope_new [extract_crate_name_from_module_path module_path]
  | none => scope_new []

/-- The module scope built by `impl log::Log for Zlog::log`. -/
def zlog_module_scope (record : LogRecord) : Scope :=
  match record.module_path_static with
  | some module_path => scope_new [module_path]
  | none => scope_new ["*unknown*"]

/-- Rust: `impl log::Log for Zlog::log`. Returns the record submitted to
`sink::submit`, or `none` when one of the two checks fails and the function
returns early without any effect. -/
def Zlog.log (filt : Filters) (record : LogRecord) : Option SinkRecord :=
  if !filt.is_possibly_enabled_level record.level then
    none
  else if !filt.is_scope_enabled (zlog_crate_name_scope record) record.module_path record.level then
    none
  else
    some { scope := zlog_module_scope record
           level := record.level
           message := record.message
           module_path := record.module_path.or record.file }

/-- Rust: `impl log::Log for Logger::log`. -/
def Logger.logRecord (filt : Filters) (logger : Logger) (record : LogRecord) : Option SinkRecord :=
  if !filt.is_possibly_enabled_level record.level then
    none
  else if !filt.is_scope_enabled logger.scope record.module_path record.level then
    none
  else
    some { scope := logger.scope
           level := record.level
           message := record.message
           module_path := record.module_path }

/-- Rust: the `log!` macro body: check `filter::is_scope_enabled` on the
logger's scope and the expansion site's `module_path!()`, and on success submit
one record to the sink. The returned list holds the submitted records. -/
def log_emit (filt : Filters) (logger : Logger) (level : Level) (message : Message)
    (module_path : String) : List SinkRecord :=
  if filt.is_scope_enabled logger.scope (some module_path) level then
    [{ scope := logger.scope
       level := level
       message := message
       module_path := some module_path }]
  else
    []

/-- `module_path!()` at the expansion sites inside `Timer::finish` (zlog.rs). -/
def zlog_module_path : String := "zlog"

/-- Rust: `pub struct Timer`. `start_time` is an `Instant` (a `Nat` here),
`warn_if_longer_than` an optional `Duration`. -/
structure Timer where
  logger : Logger
  start_time : Nat
  name : String
  warn_if_longer_than : Option Nat
  done : Bool
deriving DecidableEq, Repr

/-- Rust: `Timer::new` (created at the current instant, no warn limit, not done). -/
def Timer.new (logger : Logger) (name : String) (now : Nat) : Timer :=
  { logger := logger
    start_time := now
    name := name
    warn_if_longer_than := none
    done := false }

/-- Rust: `Timer::warn_if_gt`. -/
def Timer.warn_if_gt (t : Timer) (warn_limit : Nat) : Timer :=
  { t with warn_if_longer_than := some warn_limit }

/-- Rust: `Timer::finish` at instant `now`. Returns the updated timer and the
records submitted by the `warn!` / `trace!` expansions it contains. Mirrors the
source: an already-done timer returns immediately; otherwise, if a warn limit
is set and exceeded, the warn record is emitted and the function returns before
reaching the trace emission; otherwise the trace record is emitted. -/
def Timer.finish (filt : Filters) (t : Timer) (now : Nat) : Timer × List SinkRecord :=
  if t.done then
    (t, [])
  else
    let elapsed := now - t.start_time
    match t.warn_if_longer_than with
    | some warn_limit =>
        if elapsed > warn_limit then
          ({ t with done := true },
           log_emit filt t.logger Level.warn
             (Message.timerWarn t.name elapsed warn_limit) zlog_module_path)
        else
          ({ t with done := true },
           log_emit filt t.logger Level.trace
             (Message.timerTrace t.name elapsed) zlog_module_path)
    | none =>
        ({ t with done := true },
         log_emit filt t.logger Level.trace
           (Message.timerTrace t.name elapsed) zlog_module_path)

/-- Rust: `Timer::end` consumes the timer and calls `finish`. -/
def Timer.endCall (filt : Filters) (t : Timer) (now : Nat) : Timer × List SinkRecord :=
  Timer.finish filt t now

/-- Rust: `impl Drop for Timer` calls `finish` when the timer leaves scope. -/
def Timer.dropCall (filt : Filters) (t : Timer) (now : Nat) : Timer × List SinkRecord :=
  Timer.finish filt t now

/-- The environment-derived filter mapping produced by `env_config::parse`
(scope-path string to level), the module itself being outside the sources. -/
abbrev EnvFilter := List (String × LevelFilter)

/-- The process-wide mutable state touched by the initialization path:
whether a `log::Log` backend is installed (`log::set_logger`), the global max
level (`log::set_max_level`), the installed environment filter
(`filter::init_env_filter`), the settings-derived filter
(`filter::refresh_from_settings`), and the lines printed to standard error. -/
structure ProcState where
  logger_installed : Bool
  max_level : LevelFilter
  env_filter : Option EnvFilter
  settings_filter : EnvFilter
  stderr : List String
deriving DecidableEq, Repr

/-- Rust: `get_env_config()`:
`std::env::var("ZED_LOG").or_else(|_| std::env::var("RUST_LOG")).ok()`.
The process environment is a lookup function from variable name to value. -/
def get_env_config (env : String → Option String) : Option String :=
  (env "ZED_LOG").or (env "RUST_LOG")

/-- Rust: `process_env()`. `parse` is the external `env_config::parse`. On a
missing variable it returns with no effect; on a parse success the filter is
installed (`filter::init_env_filter`); on a parse failure the error is printed
to standard error and the function returns normally. -/
def process_env (parse : String → Except String EnvFilter) (env : String → Option String)
    (s : ProcState) : ProcState :=
  match get_env_config env with
  | none => s
  | some env_config =>
      match parse env_config with
      | Except.ok filter => { s with env_filter := some filter }
      | Except.error err =>
          { s with stderr := s.stderr ++ ["Failed to parse log filter: " ++ err] }

/-- The error of `try_init`: its only fallible step is `log::set_logger`, which
fails exactly when a logger is already installed (`SetLoggerError`). -/
inductive TryInitError where
  | set_logger_conflict
deriving DecidableEq, Repr

/-- Rust: `log::set_logger(&ZLOG)`: fails when a backend is already installed,
otherwise installs the backend. -/
def set_logger (s : ProcState) : Except TryInitError ProcState :=
  if s.logger_installed then
    Except.error TryInitError.set_logger_conflict
  else
    Except.ok { s with logger_installed := true }

/-- Rust: `filter::refresh_from_settings` (module outside the sources): replaces
the settings-derived filter table; `try_init` passes the empty map. -/
def refresh_from_settings (m : EnvFilter) (s : ProcState) : ProcState :=
  { s with settings_filter := m }

/-- Rust: `try_init()`: install the backend (propagating its error with `?`),
set the global max level to `LevelFilter::max()`, process the environment, and
refresh from the (empty) settings map. -/
def try_init (parse : String → Except String EnvFilter) (env : String → Option String)
    (s : ProcState) : Except TryInitError ProcState :=
  match set_logger s with
  | Except.error e => Except.error e
  | Except.ok s1 =>
      let s2 := { s1 with max_level := LevelFilter.maxLevel }
      let s3 := process_env parse env s2
      let s4 := refresh_from_settings [] s3
      Except.ok s4

/-- The display of `SetLoggerError`, printed by `init` on failure. -/
def try_init_error_message : String :=
  "attempted to set a logger after the logging system was already initialized"

/-- Rust: `init()`: run `try_init` and, on error, report it (to the active log
backend and to standard error) and return normally. -/
def init (parse : String → Except String EnvFilter) (env : String → Option String)
    (s : ProcState) : ProcState :=
  match try_init parse env s with
  | Except.error _ => { s with stderr := s.stderr ++ [try_init_error_message] }
  | Except.ok s2 => s2

example : extract_crate_name_from_module_path "alpha::beta::gamma" = "alpha" := by decide
example : extract_crate_name_from_module_path "alpha" = "alpha" := by decide
example : extract_crate_name_from_module_path "alpha:?:beta" = "alpha:?:beta" := by decide
example : scoped_derive (Logger.mk ["a", "b", "c", "d"]) "e" = none := by decide
example : scoped_derive (Logger.mk ["a", "", "", ""]) "e" = some (Logger.mk ["a", "e", "", ""]) := by decide

/-- A complete two-character `"::"` marker sits at position `i` of `p`. -/
abbrev has_marker_at (p : List Char) (i : Nat) : Prop :=
  p[i]? = some ':' ∧ p[i + 1]? = some ':'

lemma find_double_colon_some (p : List Char) (i : Nat)
    (h : find_double_colon p = some i) :
    has_marker_at p i ∧ ∀ j, j < i → ¬ has_marker_at p j := by
  induction p generalizing i with
  | nil => simp [find_double_colon] at h
  | cons c1 rest ih =>
    cases rest with
    | nil => simp [find_double_colon] at h
    | cons c2 rest2 =>
      rw [find_double_colon] at h
      split at h
      · rename_i hcc
        cases h
        refine ⟨⟨by simp [hcc.1], by simp [hcc.2]⟩, ?_⟩
        intro j hj
        omega
      · rename_i hcc
        rcases Option.map_eq_some'.mp h with ⟨i2, hfind, hi⟩
        subst hi
        obtain ⟨hm, hmin⟩ := ih i2 hfind
        refine ⟨⟨by simpa using hm.1, by simpa using hm.2⟩, ?_⟩
        intro j hj hmj
        cases j with
        | zero =>
          apply hcc
          constructor
          · simpa using hmj.1
          · simpa using hmj.2
        | succ j2 =>
          apply hmin j2 (by omega)
          exact ⟨by simpa using hmj.1, by simpa using hmj.2⟩

lemma find_double_colon_none (p : List Char)
    (h : find_double_colon p = none) (i : Nat) :
    ¬ has_marker_at p i := by
  induction p generalizing i with
  | nil => simp [has_marker_at]
  | cons c1 rest ih =>
    cases rest with
    | nil =>
      intro hm
      have h2 := hm.2
      rw [List.getElem?_eq_none (by simp)] at h2
      cases h2
    | cons c2 rest2 =>
      rw [find_double_colon] at h
      split at h
      · cases h
      · rename_i hcc
        have hrest : find_double_colon (c2 :: rest2) = none := by
          simpa using h
        intro hm
        cases i with
        | zero =>
          apply hcc
          exact ⟨by simpa using hm.1, by simpa using hm.2⟩
        | succ i2 =>
          apply ih hrest i2
          exact ⟨by simpa using hm.1, by simpa using hm.2⟩

lemma find_double_colon_eq_some (p : List Char) (i : Nat)
    (hm : has_marker_at p i) (hmin : ∀ j, j < i → ¬ has_marker_at p j) :
    find_double_colon p = some i := by
  cases hfd : find_double_colon p with
  | none => exact absurd hm (find_double_colon_none p hfd i)
  | some k =>
    obtain ⟨hk, hkmin⟩ := find_double_colon_some p k hfd
    rcases Nat.lt_trichotomy k i with h | h | h
    · exact absurd hk (hmin k h)
    · rw [h]
    · exact absurd hm (hkmin i h)

lemma no_marker_of_bounded (p : List Char)
    (h : ∀ i, i < p.length → ¬ has_marker_at p i) (i : Nat) :
    ¬ has_marker_at p i := by
  intro hm
  rcases List.getElem?_eq_some_iff.mp hm.1 with ⟨hlt, _⟩
  exact h i hlt hm

lemma extract_chars_of_none (p : List Char) (h : find_double_colon p = none) :
    extract_crate_name_from_module_path_chars p = p := by
  unfold extract_crate_name_from_module_path_chars
  rw [h]

lemma extract_chars_of_some (p : List Char) (i : Nat) (h : find_double_colon p = some i) :
    extract_crate_name_from_module_path_chars p = p.take i := by
  unfold extract_crate_name_from_module_path_chars
  rw [h]

/-- Claim C4: the crate-name extraction maps `"alpha::beta::gamma"` to
`"alpha"`; it returns any input containing no complete two-character `"::"`
marker unchanged (including `"alpha"` and `"alpha:?:beta"`); and when markers
occur, the prefix before the first one is returned. -/
theorem C4_crate_name_extraction :
    extract_crate_name_from_module_path "alpha::beta::gamma" = "alpha"
    ∧ extract_crate_name_from_module_path "alpha" = "alpha"
    ∧ extract_crate_name_from_module_path "alpha:?:beta" = "alpha:?:beta"
    ∧ (∀ p : List Char, (∀ i, ¬ has_marker_at p i) →
        extract_crate_name_from_module_path_chars p = p)
    ∧ (∀ (p : List Char) (i : Nat), has_marker_at p i →
        (∀ j, j < i → ¬ has_marker_at p j) →
        extract_crate_name_from_module_path_chars p = p.take i) := by
  refine ⟨by decide, by decide, by decide, ?_, ?_⟩
  · intro p hp
    cases hfd : find_double_colon p with
    | none => exact extract_chars_of_none p hfd
    | some k =>
      exact absurd (find_double_colon_some p k hfd).1 (hp k)
  · intro p i hm hmin
    exact extract_chars_of_some p i (find_double_colon_eq_some p i hm hmin)

/-- Witness for C4: the universally quantified conjuncts applied at the
concrete inputs `"alpha:?:beta"` (no complete marker) and `"ab::cd::ef"`
(first marker at index 2). -/
theorem C4_crate_name_extraction_witness :
    extract_crate_name_from_module_path_chars (String.data "alpha:?:beta")
      = String.data "alpha:?:beta"
    ∧ extract_crate_name_from_module_path_chars (String.data "ab::cd::ef")
      = List.take 2 (String.data "ab::cd::ef") := by
  constructor
  · exact C4_crate_name_extraction.2.2.2.1 _
      (no_marker_of_bounded _ (by decide))
  · exact C4_crate_name_extraction.2.2.2.2 _ 2 (by decide) (by decide)

lemma extract_chars_idempotent (p : List Char) :
    extract_crate_name_from_module_path_chars (extract_crate_name_from_module_path_chars p)
      = extract_crate_name_from_module_path_chars p := by
  cases hfd : find_double_colon p with
  | none =>
    have h1 := extract_chars_of_none p hfd
    rw [h1, h1]
  | some i =>
    obtain ⟨hm, hmin⟩ := find_double_colon_some p i hfd
    have hself := extract_chars_of_some p i hfd
    rw [hself]
    have hnone : find_double_colon (p.take i) = none := by
      cases hfd2 : find_double_colon (p.take i) with
      | none => rfl
      | some k =>
        obtain ⟨hk, _⟩ := find_double_colon_some (p.take i) k hfd2
        rcases List.getElem?_eq_some_iff.mp hk.2 with ⟨hlt, _⟩
        rw [List.length_take] at hlt
        have hki : k + 1 < i := by omega
        have hm2 : has_marker_at p k := by
          constructor
          · rw [← List.getElem?_take_of_lt (show k < i by omega)]
            exact hk.1
          · rw [← List.getElem?_take_of_lt hki]
            exact hk.2
        exact absurd hm2 (hmin k (by omega))
    exact extract_chars_of_none _ hnone

/-- Claim C5: crate-name extraction is idempotent on every module path string:
extracting again from the result returns the result unchanged, because the
extracted prefix contains no further complete `"::"` marker. -/
theorem C5_extract_idempotent (p : String) :
    extract_crate_name_from_module_path (extract_crate_name_from_module_path p)
      = extract_crate_name_from_module_path p := by
  unfold extract_crate_name_from_module_path
  rw [extract_chars_idempotent]

lemma cnp_le_length (l : List String) : nonempty_run_len l ≤ l.length := by
  induction l with
  | nil => simp [nonempty_run_len]
  | cons s rest ih =>
    simp only [nonempty_run_len, List.length_cons]
    split
    · omega
    · omega

lemma cnp_get (l : List String) (h : nonempty_run_len l < l.length) :
    l[nonempty_run_len l]? = some "" := by
  induction l with
  | nil => simp at h
  | cons s rest ih =>
    by_cases hs : s.isEmpty
    · have hempty : s = "" := (String.isEmpty_iff s).mp hs
      subst hempty
      have h0 : nonempty_run_len ("" :: rest) = 0 := by
        rw [nonempty_run_len, if_pos (by decide)]
      rw [h0, List.getElem?_cons_zero]
    · simp only [nonempty_run_len, if_neg hs, List.length_cons] at h ⊢
      rw [List.getElem?_cons_succ]
      exact ih (by omega)

lemma cnp_before (l : List String) (j : Nat) (h : j < nonempty_run_len l) :
    l[j]? ≠ some "" := by
  induction l generalizing j with
  | nil => simp [nonempty_run_len] at h
  | cons s rest ih =>
    by_cases hs : s.isEmpty
    · simp [nonempty_run_len, hs] at h
    · simp only [nonempty_run_len, if_neg hs] at h
      cases j with
      | zero =>
        simp only [List.getElem?_cons_zero]
        intro he
        apply hs
        rw [Option.some_inj.mp he]
        decide
      | succ j2 =>
        rw [List.getElem?_cons_succ]
        exact ih j2 (by omega)

lemma cnp_min (l : List String) (i : Nat) (h : l[i]? = some "") :
    nonempty_run_len l ≤ i := by
  induction l generalizing i with
  | nil => simp at h
  | cons s rest ih =>
    by_cases hs : s.isEmpty
    · simp [nonempty_run_len, hs]
    · cases i with
      | zero =>
        rw [List.getElem?_cons_zero] at h
        have : s = "" := Option.some_inj.mp h
        rw [this] at hs
        exact absurd (by decide) hs
      | succ i2 =>
        rw [List.getElem?_cons_succ] at h
        simp only [nonempty_run_len, if_neg hs]
        have := ih i2 h
        omega

/-- Claim C1 (the claim fails on the code): deriving a child from a Logger
whose four slots are all non-empty does not return the parent scope unchanged;
the embedded `scoped!` body reaches `scope[index] = name` with `index = 4`,
which panics in release builds (out-of-bounds write) just as the
`unreachable!` does in debug builds, modelled as `none`. -/
theorem C1_scope_overflow_panics :
    scoped_derive (Logger.mk ["app", "net", "conn", "retry"]) "extra" = none
    ∧ scoped_derive (Logger.mk ["app", "net", "conn", "retry"]) "extra"
        ≠ some (Logger.mk ["app", "net", "conn", "retry"]) := by
  constructor
  · decide
  · decide

/-- Claim C10: for a parent whose scope has an empty slot at some index at or
above 1, derivation writes the new segment exactly at the first such slot
(`first_empty_from scope 1`), leaves every other slot unchanged, and in
particular never writes slot 0. -/
theorem C10_scoped_frame (parent : Logger) (name : String) (i : Nat)
    (h1 : 1 ≤ i) (h2 : parent.scope[i]? = some "") :
    1 ≤ first_empty_from parent.scope 1
    ∧ first_empty_from parent.scope 1 ≤ i
    ∧ parent.scope[first_empty_from parent.scope 1]? = some ""
    ∧ (∀ j, 1 ≤ j → j < first_empty_from parent.scope 1 → parent.scope[j]? ≠ some "")
    ∧ scoped_derive parent name
        = some { scope := parent.scope.set (first_empty_from parent.scope 1) name }
    ∧ (parent.scope.set (first_empty_from parent.scope 1) name)[first_empty_from parent.scope 1]?
        = some name
    ∧ (∀ j, j ≠ first_empty_from parent.scope 1 →
        (parent.scope.set (first_empty_from parent.scope 1) name)[j]? = parent.scope[j]?)
    ∧ (parent.scope.set (first_empty_from parent.scope 1) name)[0]? = parent.scope[0]? := by
  have hil : i < parent.scope.length := (List.getElem?_eq_some_iff.mp h2).1
  have hdrop : (parent.scope.drop 1)[i - 1]? = some "" := by
    rw [List.getElem?_drop, show 1 + (i - 1) = i by omega]
    exact h2
  have hcnp_min := cnp_min (parent.scope.drop 1) (i - 1) hdrop
  have hk_le : first_empty_from parent.scope 1 ≤ i := by
    unfold first_empty_from
    omega
  have hk_lt : first_empty_from parent.scope 1 < parent.scope.length := by omega
  have hk_ge : 1 ≤ first_empty_from parent.scope 1 := by
    unfold first_empty_from
    omega
  have hk_at : parent.scope[first_empty_from parent.scope 1]? = some "" := by
    have hcnp_lt : nonempty_run_len (parent.scope.drop 1) < (parent.scope.drop 1).length := by
      unfold first_empty_from at hk_lt
      simp only [List.length_drop]
      omega
    have hg := cnp_get _ hcnp_lt
    rw [List.getElem?_drop] at hg
    unfold first_empty_from
    exact hg
  have hk_min : ∀ j, 1 ≤ j → j < first_empty_from parent.scope 1 →
      parent.scope[j]? ≠ some "" := by
    intro j hj1 hjk
    have hj2 : j - 1 < nonempty_run_len (parent.scope.drop 1) := by
      unfold first_empty_from at hjk
      omega
    have hb := cnp_before _ _ hj2
    rw [List.getElem?_drop, show 1 + (j - 1) = j by omega] at hb
    exact hb
  have hsome : scoped_derive parent name
      = some { scope := parent.scope.set (first_empty_from parent.scope 1) name } := by
    unfold scoped_derive
    exact if_neg (by omega)
  refine ⟨hk_ge, hk_le, hk_at, hk_min, hsome, ?_, ?_, ?_⟩
  · exact List.getElem?_set_self hk_lt
  · intro j hj
    exact List.getElem?_set_ne (Ne.symm hj)
  · exact List.getElem?_set_ne (by omega)

/-- Witness for C10: deriving `"c"` from the parent scope
`["a", "b", "", ""]` (first empty slot at index 2) yields
`["a", "b", "c", ""]`. -/
theorem C10_scoped_frame_witness :
    scoped_derive (Logger.mk ["a", "b", "", ""]) "c"
      = some (Logger.mk ["a", "b", "c", ""]) :=
  (C10_scoped_frame (Logger.mk ["a", "b", "", ""]) "c" 2 (by decide) (by decide)).2.2.2.2.1

/-- Claim C2: when a warn threshold is configured and the measured elapsed time
exceeds it, completion emits exactly one Warn-level record through the held
Logger, carrying the label, the elapsed value and the threshold, and no
Trace-level record; when no threshold is configured, or elapsed does not
exceed it, completion emits exactly one Trace-level record with the label and
elapsed. Stated for a filter table that enables every scope, since emission
goes through the `warn!` / `trace!` macros. -/
theorem C2_timer_threshold (filt : Filters) (t : Timer) (now : Nat)
    (henabled : ∀ s mp l, filt.is_scope_enabled s mp l = true)
    (hnotdone : t.done = false) :
    (∀ limit, t.warn_if_longer_than = some limit → now - t.start_time > limit →
      (Timer.finish filt t now).2 =
        [{ scope := t.logger.scope
           level := Level.warn
           message := Message.timerWarn t.name (now - t.start_time) limit
           module_path := some zlog_module_path }])
    ∧ (t.warn_if_longer_than = none →
      (Timer.finish filt t now).2 =
        [{ scope := t.logger.scope
           level := Level.trace
           message := Message.timerTrace t.name (now - t.start_time)
           module_path := some zlog_module_path }])
    ∧ (∀ limit, t.warn_if_longer_than = some limit → ¬ now - t.start_time > limit →
      (Timer.finish filt t now).2 =
        [{ scope := t.logger.scope
           level := Level.trace
           message := Message.timerTrace t.name (now - t.start_time)
           module_path := some zlog_module_path }]) := by
  refine ⟨?_, ?_, ?_⟩
  · intro limit hlim hgt
    simp [Timer.finish, hnotdone, hlim, hgt, log_emit, henabled]
  · intro hlim
    simp [Timer.finish, hnotdone, hlim, log_emit, henabled]
  · intro limit hlim hgt
    simp [Timer.finish, hnotdone, hlim, hgt, log_emit, henabled]

/-- Witness for C2: a timer started at instant 0 with a warn threshold of 10,
finished at instant 15 (elapsed 15 > 10) under an all-enabling filter, emits
exactly the single Warn record with the label, elapsed 15 and threshold 10. -/
theorem C2_timer_threshold_witness :
    (Timer.finish (Filters.mk (fun _ => true) (fun _ _ _ => true))
        (Timer.warn_if_gt
          (Timer.new (Logger.mk ["zlog", "", "", ""]) "work" 0) 10) 15).2
      = [{ scope := ["zlog", "", "", ""]
           level := Level.warn
           message := Message.timerWarn "work" 15 10
           module_path := some zlog_module_path }] :=
  (C2_timer_threshold (Filters.mk (fun _ => true) (fun _ _ _ => true))
    (Timer.warn_if_gt (Timer.new (Logger.mk ["zlog", "", "", ""]) "work" 0) 10)
    15 (fun _ _ _ => rfl) rfl).1 10 rfl (by decide)

/-- Claim C3: timer completion runs its emitting body at most once: `finish`
always leaves the done flag set, finishing an already-done timer is a no-op
with no emission, and an explicit completion followed by the drop-triggered
one emits exactly one record in total (under an all-enabling filter). -/
theorem C3_timer_completes_once (filt : Filters) (t : Timer) (n1 n2 : Nat) :
    ((Timer.finish filt t n1).1.done = true)
    ∧ (t.done = true → Timer.finish filt t n2 = (t, []))
    ∧ ((Timer.finish filt (Timer.finish filt t n1).1 n2).2 = [])
    ∧ (t.done = false → (∀ s mp l, filt.is_scope_enabled s mp l = true) →
        ((Timer.finish filt t n1).2
          ++ (Timer.finish filt (Timer.finish filt t n1).1 n2).2).length = 1) := by
  have hb : ∀ (u : Timer) (n : Nat), u.done = true → Timer.finish filt u n = (u, []) := by
    intro u n hu
    unfold Timer.finish
    rw [if_pos hu]
  have ha : ∀ (u : Timer) (n : Nat), ((Timer.finish filt u n).1).done = true := by
    intro u n
    by_cases hu : u.done = true
    · rw [hb u n hu]
      exact hu
    · rw [Bool.not_eq_true] at hu
      cases hw : u.warn_if_longer_than with
      | none => simp [Timer.finish, hu, hw]
      | some limit =>
        simp only [Timer.finish, hu, hw, Bool.false_eq_true, if_false]
        split
        · rfl
        · rfl
  refine ⟨ha t n1, hb t n2, ?_, ?_⟩
  · rw [hb _ n2 (ha t n1)]
  · intro hnd hen
    rw [hb _ n2 (ha t n1)]
    have hone : (Timer.finish filt t n1).2.length = 1 := by
      cases hw : t.warn_if_longer_than with
      | none => simp [Timer.finish, hnd, hw, log_emit, hen]
      | some limit =>
        by_cases hgt : n1 - t.start_time > limit
        · simp [Timer.finish, hnd, hw, hgt, log_emit, hen]
        · simp [Timer.finish, hnd, hw, hgt, log_emit, hen]
    simp [hone]

/-- Witness for C3: a fresh timer explicitly finished at instant 5 and then
drop-finished at instant 9 emits one record in total. -/
theorem C3_timer_completes_once_witness :
    ((Timer.finish (Filters.mk (fun _ => true) (fun _ _ _ => true))
        (Timer.new (Logger.mk ["zlog", "", "", ""]) "op" 0) 5).2
      ++ (Timer.finish (Filters.mk (fun _ => true) (fun _ _ _ => true))
          (Timer.finish (Filters.mk (fun _ => true) (fun _ _ _ => true))
            (Timer.new (Logger.mk ["zlog", "", "", ""]) "op" 0) 5).1 9).2).length = 1 :=
  (C3_timer_completes_once (Filters.mk (fun _ => true) (fun _ _ _ => true))
    (Timer.new (Logger.mk ["zlog", "", "", ""]) "op" 0) 5 9).2.2.2
    rfl (fun _ _ _ => rfl)

/-- Claim C6: on the backend dispatch path (and likewise on the Logger
dispatch path), a record is constructed and submitted to the sink exactly when
the global level gate passes and then the scope-match check passes; when
either check fails the result is `none` (an early return with no effect). -/
theorem C6_dispatch_gates (filt : Filters) (record : LogRecord) (logger : Logger) :
    (Zlog.log filt record
        = some { scope := zlog_module_scope record
                 level := record.level
                 message := record.message
                 module_path := record.module_path.or record.file }
      ↔ (filt.is_possibly_enabled_level record.level = true
          ∧ filt.is_scope_enabled (zlog_crate_name_scope record)
              record.module_path record.level = true))
    ∧ (Zlog.log filt record = none
      ↔ ¬(filt.is_possibly_enabled_level record.level = true
          ∧ filt.is_scope_enabled (zlog_crate_name_scope record)
              record.module_path record.level = true))
    ∧ (Logger.logRecord filt logger record
        = some { scope := logger.scope
                 level := record.level
                 message := record.message
                 module_path := record.module_path }
      ↔ (filt.is_possibly_enabled_level record.level = true
          ∧ filt.is_scope_enabled logger.scope record.module_path record.level = true))
    ∧ (Logger.logRecord filt logger record = none
      ↔ ¬(filt.is_possibly_enabled_level record.level = true
          ∧ filt.is_scope_enabled logger.scope record.module_path record.level = true)) := by
  refine ⟨?_, ?_, ?_, ?_⟩
  · by_cases h1 : filt.is_possibly_enabled_level record.level = true <;>
      by_cases h2 : filt.is_scope_enabled (zlog_crate_name_scope record)
        record.module_path record.level = true <;>
      simp [Zlog.log, h1, h2]
  · by_cases h1 : filt.is_possibly_enabled_level record.level = true <;>
      by_cases h2 : filt.is_scope_enabled (zlog_crate_name_scope record)
        record.module_path record.level = true <;>
      simp [Zlog.log, h1, h2]
  · by_cases h1 : filt.is_possibly_enabled_level record.level = true <;>
      by_cases h2 : filt.is_scope_enabled logger.scope record.module_path record.level = true <;>
      simp [Logger.logRecord, h1, h2]
  · by_cases h1 : filt.is_possibly_enabled_level record.level = true <;>
      by_cases h2 : filt.is_scope_enabled logger.scope record.module_path record.level = true <;>
      simp [Logger.logRecord, h1, h2]

/-- The ordering on `Logger` values induced by their `Scope` content
(lexicographic on the segment lists). -/
def Logger.le (a b : Logger) : Prop := a.scope ≤ b.scope

/-- Claim C9: Logger equality holds exactly when the two Scopes agree segment
by segment; `Logger.le` is a total order (total, antisymmetric, transitive)
determined entirely by Scope content; and two Loggers with identical Scope are
interchangeable in the log operation. -/
theorem C9_logger_value_type (a b : Logger) :
    (a = b ↔ ∀ i : Nat, a.scope[i]? = b.scope[i]?)
    ∧ (Logger.le a b ∨ Logger.le b a)
    ∧ (Logger.le a b → Logger.le b a → a = b)
    ∧ (∀ c : Logger, Logger.le a b → Logger.le b c → Logger.le a c)
    ∧ (a.scope = b.scope →
        ∀ (filt : Filters) (record : LogRecord),
          Logger.logRecord filt a record = Logger.logRecord filt b record) := by
  refine ⟨?_, ?_, ?_, ?_, ?_⟩
  · constructor
    · intro h i
      rw [h]
    · intro h
      have hs : a.scope = b.scope := List.ext_getElem? h
      cases a with
      | mk sa =>
        cases b with
        | mk sb =>
          simp only at hs
          rw [hs]
  · exact le_total a.scope b.scope
  · intro h1 h2
    have hs : a.scope = b.scope := le_antisymm h1 h2
    cases a with
    | mk sa =>
      cases b with
      | mk sb =>
        simp only at hs
        rw [hs]
  · intro c h1 h2
    exact le_trans h1 h2
  · intro h filt record
    unfold Logger.logRecord
    rw [h]

/-- Witness for C9: the antisymmetry conjunct applied to two identical concrete
Loggers, both order hypotheses discharged by reflexivity of the scope order. -/
theorem C9_logger_value_type_witness :
    Logger.mk ["zlog", "scope1", "", ""] = Logger.mk ["zlog", "scope1", "", ""] :=
  (C9_logger_value_type (Logger.mk ["zlog", "scope1", "", ""])
    (Logger.mk ["zlog", "scope1", "", ""])).2.2.1 (le_refl _) (le_refl _)

lemma process_env_max_level (parse : String → Except String EnvFilter)
    (env : String → Option String) (s : ProcState) :
    (process_env parse env s).max_level = s.max_level := by
  cases hg : get_env_config env with
  | none => simp [process_env, hg]
  | some cfg =>
    cases hp : parse cfg with
    | ok f => simp [process_env, hg, hp]
    | error e => simp [process_env, hg, hp]

lemma process_env_installed (parse : String → Except String EnvFilter)
    (env : String → Option String) (s : ProcState) :
    (process_env parse env s).logger_installed = s.logger_installed := by
  cases hg : get_env_config env with
  | none => simp [process_env, hg]
  | some cfg =>
    cases hp : parse cfg with
    | ok f => simp [process_env, hg, hp]
    | error e => simp [process_env, hg, hp]

/-- Claim C7: the environment configuration is looked up under `ZED_LOG` first
and `RUST_LOG` second, the first one found winning; with neither set,
`process_env` has no effect (no filter installed, nothing printed); on a parse
failure the error is reported to standard error, the environment filter is left
unchanged, and the function returns normally. -/
theorem C7_env_filter_config (parse : String → Except String EnvFilter)
    (env : String → Option String) (s : ProcState) :
    (∀ v, env "ZED_LOG" = some v → get_env_config env = some v)
    ∧ (env "ZED_LOG" = none → get_env_config env = env "RUST_LOG")
    ∧ (get_env_config env = none → process_env parse env s = s)
    ∧ (∀ cfg err, get_env_config env = some cfg → parse cfg = Except.error err →
        process_env parse env s
            = { s with stderr := s.stderr ++ ["Failed to parse log filter: " ++ err] }
          ∧ (process_env parse env s).env_filter = s.env_filter) := by
  refine ⟨?_, ?_, ?_, ?_⟩
  · intro v hv
    unfold get_env_config
    rw [hv]
    rfl
  · intro hn
    unfold get_env_config
    rw [hn]
    rfl
  · intro hn
    unfold process_env
    rw [hn]
  · intro cfg err hc hp
    constructor
    · simp [process_env, hc, hp]
    · simp [process_env, hc, hp]

/-- Witness for C7: with both variables set, the `ZED_LOG` value wins; and with
`ZED_LOG` set to an unparsable string, the parse error is appended to standard
error while the rest of the state is unchanged. -/
theorem C7_env_filter_config_witness :
    get_env_config (fun k => if k = "ZED_LOG" then some "zed_cfg" else some "rust_cfg")
      = some "zed_cfg"
    ∧ process_env (fun _ => Except.error "bad directive")
        (fun k => if k = "ZED_LOG" then some "bad" else none)
        (ProcState.mk false LevelFilter.off none [] [])
      = ProcState.mk false LevelFilter.off none []
          ["Failed to parse log filter: bad directive"] := by
  constructor
  · exact (C7_env_filter_config (fun _ => Except.error "")
      (fun k => if k = "ZED_LOG" then some "zed_cfg" else some "rust_cfg")
      (ProcState.mk false LevelFilter.off none [] [])).1 "zed_cfg" (by decide)
  · exact ((C7_env_filter_config (fun _ => Except.error "bad directive")
      (fun k => if k = "ZED_LOG" then some "bad" else none)
      (ProcState.mk false LevelFilter.off none [] [])).2.2.2
      "bad" "bad directive" (by decide) rfl).1

/-- Claim C8: with the backend already installed, `try_init` fails with the
install-conflict error, which is moreover the only error `try_init` can
produce; the infallible `init` wrapper turns that failure into a standard-error
report and returns normally; and on a fresh state `try_init` succeeds, leaving
the backend installed and the global max level at `LevelFilter::max()`. -/
theorem C8_init_conflict (parse : String → Except String EnvFilter)
    (env : String → Option String) (s : ProcState) :
    (s.logger_installed = true →
      try_init parse env s = Except.error TryInitError.set_logger_conflict)
    ∧ (∀ e, try_init parse env s = Except.error e → e = TryInitError.set_logger_conflict)
    ∧ (s.logger_installed = true →
      init parse env s = { s with stderr := s.stderr ++ [try_init_error_message] })
    ∧ (s.logger_installed = false →
      ∃ s2, try_init parse env s = Except.ok s2
        ∧ s2.max_level = LevelFilter.maxLevel ∧ s2.logger_installed = true) := by
  refine ⟨?_, ?_, ?_, ?_⟩
  · intro h
    unfold try_init set_logger
    rw [if_pos h]
  · intro e he
    cases e
    rfl
  · intro h
    have h1 : try_init parse env s = Except.error TryInitError.set_logger_conflict := by
      unfold try_init set_logger
      rw [if_pos h]
    unfold init
    rw [h1]
  · intro h
    have hn : ¬ (s.logger_installed = true) := by simp [h]
    have hsl : set_logger s = Except.ok { s with logger_installed := true } := by
      unfold set_logger
      rw [if_neg hn]
    have ht : try_init parse env s
        = Except.ok (refresh_from_settings []
            (process_env parse env
              { s with logger_installed := true, max_level := LevelFilter.maxLevel })) := by
      unfold try_init
      rw [hsl]
    refine ⟨_, ht, ?_, ?_⟩
    · show (refresh_from_settings _ _).max_level = _
      unfold refresh_from_settings
      rw [process_env_max_level]
    · show (refresh_from_settings _ _).logger_installed = _
      unfold refresh_from_settings
      rw [process_env_installed]

/-- Witness for C8: on a state with the backend installed, `try_init` reports
the conflict and `init` appends the report to standard error; on a fresh state
`try_init` succeeds with the max level raised to Trace. -/
theorem C8_init_conflict_witness :
    try_init (fun _ => Except.error "") (fun _ => none)
        (ProcState.mk true LevelFilter.off none [] [])
      = Except.error TryInitError.set_logger_conflict
    ∧ init (fun _ => Except.error "") (fun _ => none)
        (ProcState.mk true LevelFilter.off none [] [])
      = ProcState.mk true LevelFilter.off none [] [try_init_error_message]
    ∧ (∃ s2, try_init (fun _ => Except.error "") (fun _ => none)
          (ProcState.mk false LevelFilter.off none [] [])
        = Except.ok s2 ∧ s2.max_level = LevelFilter.maxLevel
        ∧ s2.logger_installed = true) := by
  refine ⟨?_, ?_, ?_⟩
  · exact (C8_init_conflict (fun _ => Except.error "") (fun _ => none)
      (ProcState.mk true LevelFilter.off none [] [])).1 rfl
  · exact (C8_init_conflict (fun _ => Except.error "") (fun _ => none)
      (ProcState.mk true LevelFilter.off none [] [])).2.2.1 rfl
  · exact (C8_init_conflict (fun _ => Except.error "") (fun _ => none)
      (ProcState.mk false LevelFilter.off none [] [])).2.2.2 rfl
